import Mathlib

/-!
Verification development for the NEON decoder (`neon/decoder.py`).

The decoder is embedded shallowly: each Python function or method becomes a
Lean definition of the same name (modulo casing), operating on `List Char` /
`String` and explicit token lists instead of Python iterators.  Conventions:

* Inputs are modelled over Unicode characters, but Python's `str.isdigit` is
  modelled as the ASCII digit test (`Char.isDigit`) and `float()` only accepts
  ASCII syntax; on the ASCII fragment exercised by every claim this agrees with
  CPython exactly.
* Python `float` values are modelled exactly as rationals (plus `inf`, `-inf`,
  `nan`); binary64 rounding is not modelled.  Claims depend only on which
  conversion succeeds and on small decimal values.
* The repository's `errors` and `utils` modules are not part of the sources;
  the error classes and `lstripped` are modelled from the spec where noted.
* Python exceptions become an `Except` error value; `StopIteration` from
  `next()` on an exhausted token iterator is the `stopIteration` constructor.
* Python's `re.Scanner` materialises the whole token list before parsing
  begins, so the eager `scan` below matches the observable behaviour.
-/

namespace Neon

/-- `'\x60'` (backtick), written by code point. -/
def chBacktick : Char := Char.ofNat 0x60

/-- `'\x7b'` (left curly bracket), written by code point. -/
def chLBrace : Char := Char.ofNat 0x7b

/-- `'\x7d'` (right curly bracket), written by code point. -/
def chRBrace : Char := Char.ofNat 0x7d

/-- `'\x22'` (double quote), written by code point. -/
def chDQuote : Char := Char.ofNat 0x22

/-- `'\x27'` (single quote), written by code point. -/
def chSQuote : Char := Char.ofNat 0x27

/-- The characters Python's `str.strip()` / `str.isspace` treat as whitespace
(ASCII fragment): space, tab, newline, carriage return, vertical tab, form feed. -/
def isPySpace (c : Char) : Bool :=
  ([' ', '\t', '\n', '\r', Char.ofNat 0x0b, Char.ofNat 0x0c] : List Char).contains c

/-- Control characters and space: the `\x00-\x20` ranges of the token regexes. -/
def isCtl (c : Char) : Bool := decide (c.toNat ≤ 0x20)

/-- Python `str.isdigit` on the ASCII fragment: non-empty and all decimal digits. -/
def pyIsDigit (s : String) : Bool := !s.data.isEmpty && s.data.all (·.isDigit)

/-- Value of a list of decimal digits, most significant first. -/
def digitsToNat (ds : List Nat) : Nat := ds.foldl (fun a d => a * 10 + d) 0

/-- `Integer.convert`: `int(string)` guarded by `string.isdigit()`; digit runs
have no sign, so the value is the natural number they denote. -/
def intConvert (s : String) : Option Int :=
  if pyIsDigit s then some (digitsToNat (s.data.map (fun c => c.toNat - 48))) else none

/-- Python floats, modelled exactly: a rational for finite values, plus the
specials `float()` can produce from `inf`/`infinity`/`nan` literals. -/
inductive PyFloat where
  | finite (q : ℚ)
  | inf
  | neginf
  | nan
deriving DecidableEq

/-- The tail of a Python digit run with underscore separators: digits continue
the run, and an underscore is consumed only when both surrounded by digits.
Returns the digits read and the unconsumed remainder. -/
def digitsURest : List Char → List Nat × List Char
  | [] => ([], [])
  | c :: rest =>
    if c.isDigit then
      let (ds, r) := digitsURest rest
      ((c.toNat - 48) :: ds, r)
    else if c == '_' then
      match rest with
      | d :: r2 =>
        if d.isDigit then
          let (ds, r) := digitsURest r2
          ((d.toNat - 48) :: ds, r)
        else ([], c :: rest)
      | [] => ([], c :: rest)
    else ([], c :: rest)

/-- A Python digit run: at least one digit, then `digitsURest`. -/
def parseDigitsU : List Char → Option (List Nat × List Char)
  | [] => none
  | c :: rest =>
    if c.isDigit then
      let (ds, r) := digitsURest rest
      some ((c.toNat - 48) :: ds, r)
    else none

/-- The rational denoted by sign, integer digits, fraction digits and a signed
exponent given as digits. -/
def pyFloatVal (neg : Bool) (ip fp : List Nat) (eneg : Bool) (ed : List Nat) : ℚ :=
  let mant : ℚ := (digitsToNat (ip ++ fp) : ℚ) / ((10 : ℚ) ^ fp.length)
  let e := digitsToNat ed
  let scaled := if eneg then mant / ((10 : ℚ) ^ e) else mant * ((10 : ℚ) ^ e)
  if neg then -scaled else scaled

/-- Embedding of CPython `float(string)` acceptance (`Float.convert`'s body):
optional surrounding whitespace, an optional sign, then case-insensitively
`inf`/`infinity`/`nan` or a decimal literal (digit runs may contain
underscores between digits, the mantissa needs at least one digit, an optional
exponent needs a digit run).  The value is the exact rational denoted. -/
def pyFloatOfString (s : String) : Option PyFloat :=
  let cs := ((s.data.dropWhile isPySpace).reverse.dropWhile isPySpace).reverse
  match cs with
  | [] => none
  | _ :: _ =>
    let (neg, body) : Bool × List Char :=
      match cs with
      | '+' :: r => (false, r)
      | '-' :: r => (true, r)
      | _ => (false, cs)
    let low := body.map Char.toLower
    if low == ['i', 'n', 'f'] || low == ['i', 'n', 'f', 'i', 'n', 'i', 't', 'y'] then
      some (if neg then .neginf else .inf)
    else if low == ['n', 'a', 'n'] then
      some .nan
    else
      let (ip, r1) : List Nat × List Char :=
        match parseDigitsU body with
        | some (ds, r) => (ds, r)
        | none => ([], body)
      let (hasDot, r2) : Bool × List Char :=
        match r1 with
        | '.' :: r => (true, r)
        | _ => (false, r1)
      let (fp, r3) : List Nat × List Char :=
        if hasDot then
          match parseDigitsU r2 with
          | some (ds, r) => (ds, r)
          | none => ([], r2)
        else ([], r2)
      if ip.isEmpty && fp.isEmpty then none
      else
        match r3 with
        | [] => some (.finite (pyFloatVal neg ip fp false []))
        | e :: r4 =>
          if e == 'e' || e == 'E' then
            let (eneg, r5) : Bool × List Char :=
              match r4 with
              | '+' :: r => (false, r)
              | '-' :: r => (true, r)
              | _ => (false, r4)
            match parseDigitsU r5 with
            | some (ed, r6) => if r6.isEmpty then some (.finite (pyFloatVal neg ip fp eneg ed)) else none
            | none => none
          else none

/-- `Float.convert`: `float(string)`, `None` on `ValueError`. -/
def floatConvert (s : String) : Option PyFloat := pyFloatOfString s

/-- The true-valued alternatives of `Boolean._mapping`. -/
def trueNames : List String := ["true", "True", "TRUE", "yes", "Yes", "YES"]

/-- The false-valued alternatives of `Boolean._mapping`. -/
def falseNames : List String := ["false", "False", "FALSE", "no", "No", "NO"]

/-- The null literals checked in `Literal.do`. -/
def nullNames : List String := ["null", "Null", "NULL"]

/-- `Boolean.convert`: membership in the alternative lists, `True` first. -/
def boolConvert (s : String) : Option Bool :=
  if trueNames.contains s then some true
  else if falseNames.contains s then some false
  else none

/-- The token classes of `decoder.py` (`Token.id` values).  `Literal`,
`Comment`, `WhiteSpace` and `Unknown` never materialise as parser-visible
tokens: comments and whitespace are dropped, `Unknown` raises, and
`Literal.do` returns one of the scalar token classes. -/
inductive TokenKind where
  | String
  | Integer
  | Float
  | Boolean
  | NoneValue
  | Comma
  | Colon
  | EqualSign
  | Hyphen
  | LeftRound
  | RightRound
  | LeftSquare
  | RightSquare
  | LeftBrace
  | RightBrace
  | Indent
  | Dedent
  | NewLine
  | End
deriving DecidableEq

/-- A token's `value` attribute: `None` or an already-converted scalar
(`Indent` widths and `NewLine` counts are Python ints). -/
inductive TokValue where
  | none
  | str (s : String)
  | int (n : Int)
  | float (f : PyFloat)
  | bool (b : Bool)
deriving DecidableEq

/-- A token: `kind` (class), `value`, and the 1-based source line stamped by
`tokenize` (unset on scanner output and on `End`/synthetic tokens where the
code leaves it `None`). -/
structure Tok where
  kind : TokenKind
  value : TokValue
  line : Option Nat
deriving DecidableEq

/-- A bare token of a kind, with no value and no line (`cls()` / `End()`). -/
def tk (k : TokenKind) : Tok := ⟨k, .none, none⟩

/-- `Token.id` as the class-name string, used in error messages. -/
def idName : TokenKind → String
  | .String => "String"
  | .Integer => "Integer"
  | .Float => "Float"
  | .Boolean => "Boolean"
  | .NoneValue => "NoneValue"
  | .Comma => "Comma"
  | .Colon => "Colon"
  | .EqualSign => "EqualSign"
  | .Hyphen => "Hyphen"
  | .LeftRound => "LeftRound"
  | .RightRound => "RightRound"
  | .LeftSquare => "LeftSquare"
  | .RightSquare => "RightSquare"
  | .LeftBrace => "LeftBrace"
  | .RightBrace => "RightBrace"
  | .Indent => "Indent"
  | .Dedent => "Dedent"
  | .NewLine => "NewLine"
  | .End => "End"

/-- Rendering of a float value inside `Token.__str__`.  Python prints the
shortest round-tripping decimal; only the simple cases are rendered here, and
no claim inspects the rendering of a float-valued token. -/
def pyFloatRepr : PyFloat → String
  | .inf => "inf"
  | .neginf => "-inf"
  | .nan => "nan"
  | .finite q => if q.den == 1 then toString q.num ++ ".0" else toString q.num ++ "/" ++ toString q.den

/-- `str(value)` inside `Token.__str__`: the empty string for `None`. -/
def tokValueStr : TokValue → String
  | .none => ""
  | .str s => s
  | .int n => toString n
  | .float f => pyFloatRepr f
  | .bool b => if b then "True" else "False"

/-- `Token.__str__` / `__repr__`: `Name(value)`. -/
def reprTok (t : Tok) : String := idName t.kind ++ "(" ++ tokValueStr t.value ++ ")"

/-- `Literal.do`: the conversion cascade.  Tries `Integer.convert`, then
`Float.convert`, then `Boolean.convert` (stopping at the first non-`None`
result), then the null literals, else a `String` token with the raw text. -/
def literalDo (s : String) : Tok :=
  match intConvert s with
  | some n => ⟨.Integer, .int n, none⟩
  | none =>
    match floatConvert s with
    | some f => ⟨.Float, .float f, none⟩
    | none =>
      match boolConvert s with
      | some b => ⟨.Boolean, .bool b, none⟩
      | none =>
        if nullNames.contains s then ⟨.NoneValue, .none, none⟩
        else ⟨.String, .str s, none⟩

/-- An `Integer` token. -/
def intTok (n : Int) : Tok := ⟨.Integer, .int n, none⟩

/-- A `Float` token. -/
def floatTok (f : PyFloat) : Tok := ⟨.Float, .float f, none⟩

/-- A `Boolean` token. -/
def boolTok (b : Bool) : Tok := ⟨.Boolean, .bool b, none⟩

/-- A `String` token. -/
def strTok (s : String) : Tok := ⟨.String, .str s, none⟩

/-- Decoder failures.  `tokenError` is the spec's LexicalError (`Modelled from
the spec: the missing `errors` module's TokenError/LexicalError carries the
unmatched text`); `syntaxError` carries the pieces `advance` formats into the
message: the offending token's string representation, the expected kinds
joined with  or , and the token's line (`None` for `End`).  `stopIteration`
models `next()` on an exhausted iterator, `fuelExhausted` is unreachable for
the inputs considered (the recursion fuel is ample). -/
inductive Err where
  | tokenError (text : String)
  | syntaxError (tokRepr : String) (expected : String) (line : Option Nat)
  | stopIteration
  | fuelExhausted
deriving DecidableEq

/-- The decoded value tree: Python `None`/`str`/`int`/`float`/`bool`, lists,
and (ordered) dicts as association lists in insertion order. -/
inductive Value where
  | null
  | str (s : String)
  | int (n : Int)
  | float (f : PyFloat)
  | bool (b : Bool)
  | seq (xs : List Value)
  | map (entries : List (Value × Value))

/-- Python `==` on mapping keys.  Running code only ever uses scalar keys
(containers are unhashable and would raise before comparison), so container
keys compare unequal here. -/
def keyEq : Value → Value → Bool
  | .null, .null => true
  | .str a, .str b => a == b
  | .int a, .int b => a == b
  | .float a, .float b => a == b
  | .bool a, .bool b => a == b
  | _, _ => false

/-- `data[key] = v` on an (ordered) dict: overwrite in place on an existing
equal key, else append; iteration order keeps the first-seen position. -/
def odInsert : List (Value × Value) → Value → Value → List (Value × Value)
  | [], k, v => [(k, v)]
  | (k', v') :: rest, k, v =>
    if keyEq k' k then (k', v) :: rest else (k', v') :: odInsert rest k v

/-! ### Scanner

`re.Scanner` over the registered patterns, in registration order: `String`,
`Literal`, the ten punctuation kinds, `Comment`, `Indent`, `NewLine`,
`WhiteSpace`, `Unknown`.  At each position the first pattern that matches
wins; `Unknown` (`.*`) matches whenever the rest fail mid-string and its
action raises.  Each regex is hand-compiled below; the `Literal` pattern is

    (?: [^#"',:=[\]{}()\x00-\x20!`-] | [:-][^"',\]})\s] )
    (?: [^,:=\]})(\x00-\x20]+ | :(?! [\s,\]})] | $ ) |
        [\ \t]+ [^#,:=\]})(\x00-\x20] )*

whose three starred alternatives are tried in order with no backtracking
(nothing follows the star). -/

/-- Space or tab. -/
def isSpTab (c : Char) : Bool := c == ' ' || c == '\t'

/-- First-character class of the `Literal` pattern's first alternative. -/
def litFirstOk (c : Char) : Bool :=
  !(isCtl c ||
    ([',', ':', '=', '[', ']', '(', ')', '!', '-', '#',
      chDQuote, chSQuote, chLBrace, chRBrace, chBacktick] : List Char).contains c)

/-- Second-character class `[^"',\]})\s]` of the `[:-]…` alternative. -/
def alt2SecondOk (c : Char) : Bool :=
  !(isPySpace c || ([',', ']', ')', chDQuote, chSQuote, chRBrace] : List Char).contains c)

/-- The class `[^,:=\]})(\x00-\x20]` of the first continuation alternative. -/
def aClassOk (c : Char) : Bool :=
  !(isCtl c || ([',', ':', '=', ']', ')', '(', chRBrace] : List Char).contains c)

/-- The class `[^#,:=\]})(\x00-\x20]` after the run of blanks. -/
def cClassOk (c : Char) : Bool :=
  !(isCtl c || (['#', ',', ':', '=', ']', ')', '(', chRBrace] : List Char).contains c)

/-- The negative lookahead of `:(?![\s,\]})]|$)`: the colon continues a
literal only when a character follows that is neither whitespace nor one of
`, ] } )` (end of line is whitespace or end of input). -/
def bNextOk : List Char → Bool
  | [] => false
  | d :: _ => !(isPySpace d || ([',', ']', ')', chRBrace] : List Char).contains d)

/-- The starred continuation of the `Literal` pattern: repeatedly take a
maximal `aClassOk` run, or a colon passing the lookahead, or a run of blanks
followed by one `cClassOk` character.  Returns consumed characters and the
remainder; the fuel is an upper bound on iterations (each consumes ≥ 1). -/
def litRest : Nat → List Char → List Char × List Char
  | 0, cs => ([], cs)
  | f + 1, cs =>
    match cs with
    | [] => ([], [])
    | c :: rest =>
      if aClassOk c then
        let run := cs.takeWhile aClassOk
        let (more, r) := litRest f (cs.drop run.length)
        (run ++ more, r)
      else if c == ':' && bNextOk rest then
        let (more, r) := litRest f rest
        (c :: more, r)
      else if isSpTab c then
        let sp := cs.takeWhile isSpTab
        match cs.drop sp.length with
        | d :: rest2 =>
          if cClassOk d then
            let (more, r) := litRest f rest2
            (sp ++ d :: more, r)
          else ([], cs)
        | [] => ([], cs)
      else ([], cs)

/-- Match of the `Literal` pattern at the head of `cs`; on success the raw
text goes through `Literal.do`'s conversion cascade. -/
def matchLiteral (cs : List Char) : Option (Tok × List Char) :=
  match cs with
  | [] => none
  | c :: rest =>
    if litFirstOk c then
      let (more, r) := litRest cs.length rest
      some (literalDo (String.mk (c :: more)), r)
    else if c == ':' || c == '-' then
      match rest with
      | d :: rest2 =>
        if alt2SecondOk d then
          let (more, r) := litRest cs.length rest2
          some (literalDo (String.mk (c :: d :: more)), r)
        else none
      | [] => none
    else none

/-- Match of the `String` pattern: a quote, a run without that quote or a
newline, the closing quote; `String.do` strips the delimiters. -/
def matchQuoted (cs : List Char) : Option (Tok × List Char) :=
  match cs with
  | [] => none
  | c :: rest =>
    if c == chDQuote || c == chSQuote then
      let content := rest.takeWhile (fun d => d != c && d != '\n')
      match rest.drop content.length with
      | d :: rest2 => if d == c then some (strTok (String.mk content), rest2) else none
      | [] => none
    else none

/-- The punctuation patterns, in registration order (all single characters). -/
def punctKind (c : Char) : Option TokenKind :=
  if c == ',' then some .Comma
  else if c == ':' then some .Colon
  else if c == '=' then some .EqualSign
  else if c == '-' then some .Hyphen
  else if c == '(' then some .LeftRound
  else if c == ')' then some .RightRound
  else if c == '[' then some .LeftSquare
  else if c == ']' then some .RightSquare
  else if c == chLBrace then some .LeftBrace
  else if c == chRBrace then some .RightBrace
  else none

/-- The scan loop of `re.Scanner.scan`: at each position try the patterns in
registration order; comments and non-leading blanks are dropped, an `Indent`
is only recognised at the start of a line (`^` in multiline mode), and when
only `Unknown` (`.*`) matches the scan aborts with the unmatched text (the
rest of the line), returning no token list at all.  `atStart` tracks whether
the position follows a newline; every match consumes at least one character,
so `fuel = length + 1` suffices. -/
def scanAux : Nat → Bool → List Char → Except Err (List Tok)
  | _, _, [] => .ok []
  | 0, _, _ :: _ => .error .fuelExhausted
  | f + 1, atStart, cs =>
    match matchQuoted cs with
    | some (t, rest) => (scanAux f false rest).map (t :: ·)
    | none =>
      match matchLiteral cs with
      | some (t, rest) => (scanAux f false rest).map (t :: ·)
      | none =>
        match cs with
        | [] => .ok []
        | c :: rest0 =>
          match punctKind c with
          | some k => (scanAux f false rest0).map (tk k :: ·)
          | none =>
            if c == '#' then
              scanAux f false (rest0.dropWhile (· != '\n'))
            else if atStart && isSpTab c then
              let run := cs.takeWhile isSpTab
              (scanAux f false (cs.drop run.length)).map
                ((⟨.Indent, .int run.length, none⟩ : Tok) :: ·)
            else if c == '\n' then
              let run := cs.takeWhile (· == '\n')
              (scanAux f true (cs.drop run.length)).map
                ((⟨.NewLine, .int run.length, none⟩ : Tok) :: ·)
            else if isSpTab c then
              scanAux f false (cs.dropWhile isSpTab)
            else
              .error (.tokenError (String.mk (cs.takeWhile (· != '\n'))))

/-- Python `str.strip()` (ASCII whitespace). -/
def pyStrip (s : String) : String :=
  String.mk (((s.data.dropWhile isPySpace).reverse.dropWhile isPySpace).reverse)

/-- Modelled from the spec: the missing `utils.lstripped` yields the
characters stripped from the very start of the input, of which `tokenize`
takes the length to seed the position counter. -/
def lstrippedCount (s : String) : Nat := (s.data.takeWhile isPySpace).length

/-- `_scanner.scan(input_string.strip())`: the raw token list of a source
string (before indentation normalisation). -/
def scanStr (s : String) : Except Err (List Tok) :=
  scanAux ((pyStrip s).data.length + 1) true (pyStrip s).data

/-! ### Indentation normaliser (`tokenize`)

The post-scan pass: tracks current indentation and the indent stack, stamps
line numbers, synthesises `Dedent`/`NewLine` pairs when indentation drops,
emits the `Indent` token itself only as a block-start (when indentation
grows), and appends a single `End` with no flush of remaining stack levels.
The stack is kept top-first here (Python appends/pops at the list's end). -/

/-- Mutable state of the `tokenize` loop: the position counter, the current
indentation, the indent stack (top first), and the `newline_last` flag. -/
structure NormSt where
  pos : Nat
  curr : Nat
  stack : List Nat
  nlLast : Bool
deriving DecidableEq

/-- State at entry of the loop: `curr_indent = 0`, `indent_stack = [0]`,
`newline_last = False`, position seeded by the caller. -/
def initNorm (pos : Nat) : NormSt := ⟨pos, 0, [0], false⟩

/-- The numeric payload of an `Indent`/`NewLine` token. -/
def tokNat (v : TokValue) : Nat :=
  match v with
  | .int n => n.toNat
  | _ => 0

/-- The `while indent_stack[-1] > curr_indent` loop: pops every width above
the new indentation, yielding a `Dedent` (with the popped width) and a bare
`NewLine` for each pop, both at the current position. -/
def dedentFlush : List Nat → Nat → Nat → List Tok × List Nat
  | [], _, _ => ([], [])
  | w :: ws, ind, pos =>
    if w > ind then
      ((⟨.Dedent, .int (w : Int), some pos⟩ : Tok) ::
         (⟨.NewLine, .none, some pos⟩ : Tok) :: (dedentFlush ws ind pos).1,
       (dedentFlush ws ind pos).2)
    else ([], w :: ws)

/-- The line's indentation as the loop body computes it: when the previous
token was a newline, the width of an `Indent` token and `0` otherwise;
when it was not, the current indentation stands. -/
def normIndent (st : NormSt) (t : Tok) : Nat :=
  if st.nlLast then (if t.kind = .Indent then tokNat t.value else 0) else st.curr

/-- The position counter after this token: advanced by a newline's count. -/
def normPos (st : NormSt) (t : Tok) : Nat :=
  if t.kind = .NewLine then st.pos + tokNat t.value else st.pos

/-- One iteration of the `tokenize` loop body: returns the next state and the
tokens emitted for this raw token (the line is stamped on non-newlines, a
negative indent change yields the dedent flush, a positive one pushes the new
width and emits the `Indent` token, and a raw `Indent` is never re-emitted). -/
def normStep (st : NormSt) (t : Tok) : NormSt × List Tok :=
  let ind := normIndent st t
  let chg : Int := (ind : Int) - (st.curr : Int)
  let t' : Tok := if t.kind = .NewLine then t else { t with line := some st.pos }
  let fl : List Tok × List Nat :=
    if chg < 0 then dedentFlush st.stack ind (normPos st t) else ([], st.stack)
  let push : List Nat × List Tok := if chg > 0 then (ind :: fl.2, [t']) else (fl.2, [])
  let emitMain : List Tok := if t.kind ≠ .Indent then [t'] else []
  (⟨normPos st t, ind, push.1, t.kind = .NewLine⟩, fl.1 ++ push.2 ++ emitMain)

/-- The whole loop, folded over the raw token list. -/
def normRun : NormSt → List Tok → NormSt × List Tok
  | st, [] => (st, [])
  | st, t :: ts =>
    let s1 := normStep st t
    let s2 := normRun s1.1 ts
    (s2.1, s1.2 ++ s2.2)

/-- The states the loop passes through (initial state included), for stating
invariants of the pass. -/
def normStates : NormSt → List Tok → List NormSt
  | st, [] => [st]
  | st, t :: ts => st :: normStates (normStep st t).1 ts

/-- `tokenize` after scanning: run the loop and append the final `End()`. -/
def normalize (posInit : Nat) (toks : List Tok) : List Tok :=
  (normRun (initNorm posInit) toks).2 ++ [tk .End]

/-- `tokenize(input_string)` as the parser consumes it: scan the stripped
input, then normalise, with the position counter seeded from the stripped
leading characters. -/
def tokenizeStr (s : String) : Except Err (List Tok) :=
  (scanStr s).map (fun toks => normalize (lstrippedCount s + 1) toks)

/-! ### Parser -/

/-- `' or '.join([T.id for T in allowed_tokens])`. -/
def joinOr (ks : List TokenKind) : String := String.intercalate " or " (ks.map idName)

/-- `advance(tokens, allowed)`: pull one token; `none` allows anything, and
with an allowed list a token of any other kind raises the syntax error built
from its representation, the joined kinds, and its line.  An exhausted stream
raises `StopIteration`. -/
def advance : List Tok → Option (List TokenKind) → Except Err (Tok × List Tok)
  | [], _ => .error .stopIteration
  | t :: ts, none => .ok (t, ts)
  | t :: ts, some ks =>
    if ks.all (fun K => !(t.kind == K)) then
      .error (.syntaxError (reprTok t) (joinOr ks) t.line)
    else .ok (t, ts)

/-- `parse`'s leading loop: `for tok in tokens: if tok.id != NewLine: break`. -/
def docSkip : List Tok → Except Err (Tok × List Tok)
  | [] => .error .stopIteration
  | t :: ts => if t.kind == .NewLine then docSkip ts else .ok (t, ts)

/-- The base `Token.parse`: return the token's own (already converted) value. -/
def baseValue (t : Tok) : Value :=
  match t.value with
  | .none => .null
  | .str s => .str s
  | .int n => .int n
  | .float f => .float f
  | .bool b => .bool b

mutual

/-- Polymorphic `tok.parse(tokens)` dispatch: the four structural kinds have
overrides; every other kind falls back to the base `Token.parse`.  The fuel
only bounds recursion and is ample for every input considered. -/
def parseValueTok : Nat → Tok → List Tok → Except Err (Value × List Tok)
  | 0, _, _ => .error .fuelExhausted
  | f + 1, t, rest =>
    match t.kind with
    | .LeftRound => parseRound f rest
    | .LeftSquare => parseSquare f rest
    | .LeftBrace => parseBrace f rest
    | .Indent => parseIndentTok f rest
    | _ => .ok (baseValue t, rest)

/-- `LeftRound.parse`: inline tuple-mapping with `=` separators. -/
def parseRound : Nat → List Tok → Except Err (Value × List Tok)
  | 0, _ => .error .fuelExhausted
  | f + 1, rest => do
    let (t, r) ← advance rest none
    roundLoop f t r []

/-- The `while tok.id != RightRound.id` loop of `LeftRound.parse`. -/
def roundLoop : Nat → Tok → List Tok → List (Value × Value) → Except Err (Value × List Tok)
  | 0, _, _, _ => .error .fuelExhausted
  | f + 1, t, r, acc =>
    if t.kind == .RightRound then .ok (.map acc, r)
    else do
      let (k, r1) ← parseValueTok f t r
      let (_, r2) ← advance r1 (some [.EqualSign])
      let (t3, r3) ← advance r2 none
      let (v, r4) ← parseValueTok f t3 r3
      let (t5, r5) ← advance r4 (some [.Comma, .RightRound])
      if t5.kind == .Comma then do
        let (t6, r6) ← advance r5 none
        roundLoop f t6 r6 (odInsert acc k v)
      else roundLoop f t5 r5 (odInsert acc k v)

/-- `LeftSquare.parse`: inline sequence. -/
def parseSquare : Nat → List Tok → Except Err (Value × List Tok)
  | 0, _ => .error .fuelExhausted
  | f + 1, rest => do
    let (t, r) ← advance rest none
    squareLoop f t r []

/-- The `while tok.id != RightSquare.id` loop of `LeftSquare.parse`. -/
def squareLoop : Nat → Tok → List Tok → List Value → Except Err (Value × List Tok)
  | 0, _, _, _ => .error .fuelExhausted
  | f + 1, t, r, acc =>
    if t.kind == .RightSquare then .ok (.seq acc, r)
    else do
      let (v, r1) ← parseValueTok f t r
      let (t2, r2) ← advance r1 (some [.Comma, .RightSquare])
      if t2.kind == .Comma then do
        let (t3, r3) ← advance r2 none
        squareLoop f t3 r3 (acc ++ [v])
      else squareLoop f t2 r2 (acc ++ [v])

/-- `LeftBrace.parse`: inline mapping with `:` separators. -/
def parseBrace : Nat → List Tok → Except Err (Value × List Tok)
  | 0, _ => .error .fuelExhausted
  | f + 1, rest => do
    let (t, r) ← advance rest none
    braceLoop f t r []

/-- The `while tok.id != RightBrace.id` loop of `LeftBrace.parse`. -/
def braceLoop : Nat → Tok → List Tok → List (Value × Value) → Except Err (Value × List Tok)
  | 0, _, _, _ => .error .fuelExhausted
  | f + 1, t, r, acc =>
    if t.kind == .RightBrace then .ok (.map acc, r)
    else do
      let (k, r1) ← parseValueTok f t r
      let (_, r2) ← advance r1 (some [.Colon])
      let (t3, r3) ← advance r2 none
      let (v, r4) ← parseValueTok f t3 r3
      let (t5, r5) ← advance r4 (some [.Comma, .RightBrace])
      if t5.kind == .Comma then do
        let (t6, r6) ← advance r5 none
        braceLoop f t6 r6 (odInsert acc k v)
      else braceLoop f t5 r5 (odInsert acc k v)

/-- `Indent.parse`: peek one token, re-inject it (`itertools.chain`), and
delegate to the block list or block dict parser. -/
def parseIndentTok : Nat → List Tok → Except Err (Value × List Tok)
  | 0, _ => .error .fuelExhausted
  | f + 1, rest => do
    let (t, r) ← advance rest none
    if t.kind == .Hyphen then blockList f (t :: r) else blockDict f (t :: r)

/-- `Indent._parse_list` entry: advance once (re-reading the peeked hyphen). -/
def blockList : Nat → List Tok → Except Err (Value × List Tok)
  | 0, _ => .error .fuelExhausted
  | f + 1, xs => do
    let (t, r) ← advance xs none
    blockListLoop f t r []

/-- The `while tok.id != Dedent.id` loop of `Indent._parse_list`. -/
def blockListLoop : Nat → Tok → List Tok → List Value → Except Err (Value × List Tok)
  | 0, _, _, _ => .error .fuelExhausted
  | f + 1, t, r, acc =>
    if t.kind == .Dedent then .ok (.seq acc, r)
    else do
      let (t1, r1) ← advance r none
      let (v, r2) ← parseValueTok f t1 r1
      let (_, r3) ← advance r2 (some [.NewLine])
      let (t4, r4) ← advance r3 (some [.Hyphen, .Dedent])
      blockListLoop f t4 r4 (acc ++ [v])

/-- `Indent._parse_dict` entry. -/
def blockDict : Nat → List Tok → Except Err (Value × List Tok)
  | 0, _ => .error .fuelExhausted
  | f + 1, xs => do
    let (t, r) ← advance xs none
    blockDictLoop f t r []

/-- The `while tok.id != Dedent.id` loop of `Indent._parse_dict` (a plain
dict in the source; insertion order is preserved just the same). -/
def blockDictLoop : Nat → Tok → List Tok → List (Value × Value) → Except Err (Value × List Tok)
  | 0, _, _, _ => .error .fuelExhausted
  | f + 1, t, r, acc =>
    if t.kind == .Dedent then .ok (.map acc, r)
    else do
      let (k, r1) ← parseValueTok f t r
      let (_, r2) ← advance r1 (some [.Colon])
      let (t3, r3) ← advance r2 none
      let (t4, r4) ← if t3.kind == .NewLine then advance r3 none else pure (t3, r3)
      let (v, r5) ← parseValueTok f t4 r4
      let (_, r6) ← advance r5 (some [.NewLine])
      let (t7, r7) ← advance r6 none
      blockDictLoop f t7 r7 (odInsert acc k v)

/-- The `while tok.id != End.id` loop of the top-level `parse`. -/
def docLoop : Nat → Tok → List Tok → List (Value × Value) → Except Err Value
  | 0, _, _, _ => .error .fuelExhausted
  | f + 1, t, r, acc =>
    if t.kind == .End then .ok (.map acc)
    else do
      let (k, r1) ← parseValueTok f t r
      let (_, r2) ← advance r1 (some [.Colon])
      let (t3, r3) ← advance r2 none
      let (t4, r4) ← if t3.kind == .NewLine then advance r3 none else pure (t3, r3)
      let (v, r5) ← parseValueTok f t4 r4
      let (_, r6) ← advance r5 (some [.NewLine])
      let (t7, r7) ← advance r6 none
      docLoop f t7 r7 (odInsert acc k v)

end

/-- The top-level `parse` on a normalised token stream: skip leading
newlines, then run the entry loop; the result is the root mapping. -/
def parseDoc (f : Nat) (toks : List Tok) : Except Err Value := do
  let (t, r) ← docSkip toks
  docLoop f t r []

/-- `decode(text)` — the package entry point delegates to `parse`
(`Modelled from the spec: the missing package glue passes the text to
parse`).  The fuel is proportional to the token count and ample: every loop
iteration consumes at least one token of the stream. -/
def decode (s : String) : Except Err Value :=
  match tokenizeStr s with
  | .error e => .error e
  | .ok stream => parseDoc (4 * stream.length + 16) stream

/-- The spec's indent-stack invariant, on the top-first representation:
non-empty, bottom sentinel `0`, and strictly decreasing from top to bottom —
i.e. strictly increasing from the bottom `0` to the top. -/
def stackOk (l : List Nat) : Prop :=
  l ≠ [] ∧ l.getLast? = some 0 ∧ List.Chain' (· > ·) l

/-- Strengthened loop invariant: the stack is well-formed and its top never
exceeds the current indentation. -/
def normInv (st : NormSt) : Prop := stackOk st.stack ∧ st.stack.headI ≤ st.curr

/-! ### Theorems -/

/-- Popping widths above `ind` preserves the stack invariant, and afterwards
the top is at most `ind` (the bottom `0` is never popped). -/
theorem dedentFlush_ok (stack : List Nat) (ind pos : Nat)
    (h0 : stack.getLast? = some 0) (hc : List.Chain' (· > ·) stack) :
    stackOk (dedentFlush stack ind pos).2 ∧ (dedentFlush stack ind pos).2.headI ≤ ind := by
  induction stack with
  | nil => simp at h0
  | cons w ws ih =>
    by_cases hgt : w > ind
    · cases ws with
      | nil =>
        simp [List.getLast?] at h0
        omega
      | cons w2 ws2 =>
        have h0' : (w2 :: ws2).getLast? = some 0 := by
          rwa [List.getLast?_cons_cons] at h0
        have hc' : List.Chain' (· > ·) (w2 :: ws2) := (List.chain'_cons.mp hc).2
        simpa [dedentFlush, hgt] using ih h0' hc'
    · refine ⟨⟨?_, ?_, ?_⟩, ?_⟩ <;> simp [dedentFlush, hgt, stackOk, h0, hc]
      all_goals omega

/-- One step of the `tokenize` loop preserves the indent-stack invariant. -/
theorem normStep_inv (st : NormSt) (t : Tok) (h : normInv st) : normInv (normStep st t).1 := by
  obtain ⟨⟨hne, h0, hc⟩, hh⟩ := h
  by_cases hneg : (normIndent st t : Int) - (st.curr : Int) < 0
  · have hngt : ¬((normIndent st t : Int) - (st.curr : Int) > 0) := by omega
    have hstep : (normStep st t).1 =
        ⟨normPos st t, normIndent st t,
          (dedentFlush st.stack (normIndent st t) (normPos st t)).2, t.kind = .NewLine⟩ := by
      simp [normStep, hneg, hngt]
    rw [hstep]
    exact dedentFlush_ok st.stack (normIndent st t) (normPos st t) h0 hc
  · by_cases hgt : (normIndent st t : Int) - (st.curr : Int) > 0
    · have hstep : (normStep st t).1 =
          ⟨normPos st t, normIndent st t, normIndent st t :: st.stack, t.kind = .NewLine⟩ := by
        simp [normStep, hneg, hgt]
      rw [hstep]
      obtain ⟨w, ws, hst⟩ := List.exists_cons_of_ne_nil hne
      have hwcurr : w ≤ st.curr := by rw [hst] at hh; simpa using hh
      have hwind : w < normIndent st t := by omega
      refine ⟨⟨by simp, ?_, ?_⟩, by simp⟩
      · rw [hst, List.getLast?_cons_cons, ← hst]
        exact h0
      · rw [hst]
        exact List.chain'_cons.mpr ⟨hwind, hst ▸ hc⟩
    · have hle : st.curr ≤ normIndent st t := by omega
      have hstep : (normStep st t).1 =
          ⟨normPos st t, normIndent st t, st.stack, t.kind = .NewLine⟩ := by
        simp [normStep, hneg, hgt]
      rw [hstep]
      exact ⟨⟨hne, h0, hc⟩, le_trans hh hle⟩

/-- Every state the `tokenize` loop reaches from an invariant-satisfying
state satisfies the invariant. -/
theorem normStates_inv (toks : List Tok) :
    ∀ st0 : NormSt, normInv st0 → ∀ st ∈ normStates st0 toks, normInv st := by
  induction toks with
  | nil =>
    intro st0 h0 st hst
    simp [normStates] at hst
    exact hst ▸ h0
  | cons t ts ih =>
    intro st0 h0 st hst
    simp only [normStates, List.mem_cons] at hst
    rcases hst with rfl | hmem
    · exact h0
    · exact ih (normStep st0 t).1 (normStep_inv st0 t h0) st hmem

/-- C7: throughout the indentation-normalization pass over any input token
sequence, the indent stack is strictly increasing from its bottom sentinel 0
to its top.  The stack is represented top-first here, so the statement reads:
at every state the loop passes through, the stack is non-empty, its bottom
(last) element is the sentinel 0, and it is strictly decreasing from head
(top) to last (bottom) — i.e. strictly increasing bottom-to-top. -/
theorem c7_indent_stack_strictly_increasing :
    ∀ (pos : Nat) (toks : List Tok) (st : NormSt),
      st ∈ normStates (initNorm pos) toks →
      st.stack ≠ [] ∧ st.stack.getLast? = some 0 ∧ List.Chain' (· > ·) st.stack := by
  intro pos toks st hst
  have hinit : normInv (initNorm pos) := by
    exact ⟨⟨by simp [initNorm], by simp [initNorm], by simp [initNorm]⟩, by simp [initNorm]⟩
  exact (normStates_inv toks (initNorm pos) hinit st hst).1

/-- Witness for C7 at a concrete run: the stack invariant at the final state
of normalising the tokens of `a:`↵`␣␣b: 1` (an indent push). -/
theorem c7_indent_stack_strictly_increasing_witness :
    ((normStates (initNorm 1)
        [strTok "a", tk .Colon, ⟨.NewLine, .int 1, none⟩, ⟨.Indent, .int 2, none⟩,
         strTok "b", tk .Colon, intTok 1]).getLast (by simp [normStates])).stack ≠ [] ∧
    ((normStates (initNorm 1)
        [strTok "a", tk .Colon, ⟨.NewLine, .int 1, none⟩, ⟨.Indent, .int 2, none⟩,
         strTok "b", tk .Colon, intTok 1]).getLast (by simp [normStates])).stack.getLast? =
      some 0 ∧
    List.Chain' (· > ·)
      ((normStates (initNorm 1)
        [strTok "a", tk .Colon, ⟨.NewLine, .int 1, none⟩, ⟨.Indent, .int 2, none⟩,
         strTok "b", tk .Colon, intTok 1]).getLast (by simp [normStates])).stack :=
  c7_indent_stack_strictly_increasing 1
    [strTok "a", tk .Colon, ⟨.NewLine, .int 1, none⟩, ⟨.Indent, .int 2, none⟩,
     strTok "b", tk .Colon, intTok 1] _ (List.getLast_mem _)

/-- C10: decoding the empty string, or a string of only whitespace and line
breaks, succeeds and returns an empty mapping (the strip leaves nothing to
scan and the parser's entry loop stops at `End` immediately). -/
theorem c10_whitespace_decodes_empty :
    ∀ s : String, (∀ c ∈ s.data, isPySpace c = true) → decode s = .ok (.map []) := by
  intro s h
  have hd : s.data.dropWhile isPySpace = [] := List.dropWhile_eq_nil_iff.mpr h
  have hs : pyStrip s = "" := by
    unfold pyStrip
    rw [hd]
    rfl
  have htok : tokenizeStr s = .ok [tk .End] := by
    unfold tokenizeStr scanStr
    rw [hs]
    rfl
  unfold decode
  rw [htok]
  rfl

/-- Witness for C10 at a concrete whitespace-and-newlines string. -/
theorem c10_whitespace_decodes_empty_witness : decode " \n\t \n" = .ok (.map []) :=
  c10_whitespace_decodes_empty " \n\t \n" (by decide)

/-- C1 (failing input): decoding `items:`↵`␣␣␣␣- 1`↵`␣␣␣␣- 2` does not
return `{items: [1, 2]}`: `tokenize` emits no trailing `NewLine`/`Dedent`
before `End` and `_parse_list` requires a `NewLine` after every item, so
decoding fails with the syntax error on the `End` token.  The second
conjunct shows the intent holds: on the same normalised stream with the
missing end-of-input flush appended (final newline, dedent, newline), the
parser produces exactly `{items: [1, 2]}`. -/
theorem c1_block_sequence_hits_missing_eof_flush :
    decode "items:\n    - 1\n    - 2" = .error (.syntaxError "End()" "NewLine" none) ∧
    parseDoc 99
      [strTok "items", tk .Colon, ⟨.NewLine, .int 1, none⟩, ⟨.Indent, .int 4, none⟩,
       tk .Hyphen, intTok 1, ⟨.NewLine, .int 1, none⟩, tk .Hyphen, intTok 2,
       ⟨.NewLine, .none, none⟩, ⟨.Dedent, .int 4, none⟩, ⟨.NewLine, .none, none⟩, tk .End] =
      .ok (.map [(.str "items", .seq [.int 1, .int 2])]) :=
  ⟨rfl, rfl⟩

/-- C3 (failing input): decoding `a: 1`↵`b: 0`↵`a: 2` fails with the same
end-of-input syntax error instead of returning a mapping.  The second
conjunct shows the claimed overwrite semantics hold up to that bug: on the
token stream of the same document completed with the trailing newline the
parser never receives, the result maps `a` to 2 with `a` at its first-seen
position, before `b`. -/
theorem c3_duplicate_key_hits_missing_eof_flush :
    decode "a: 1\nb: 0\na: 2" = .error (.syntaxError "End()" "NewLine" none) ∧
    parseDoc 99
      [strTok "a", tk .Colon, intTok 1, ⟨.NewLine, .int 1, none⟩,
       strTok "b", tk .Colon, intTok 0, ⟨.NewLine, .int 1, none⟩,
       strTok "a", tk .Colon, intTok 2, ⟨.NewLine, .int 1, none⟩, tk .End] =
      .ok (.map [(.str "a", .int 2), (.str "b", .int 0)]) :=
  ⟨rfl, rfl⟩

/-- C8 (failing input): neither `a: [1, 2, 3,]` nor `a: [1, 2, 3]` decodes
to a mapping — both fail with the end-of-input syntax error.  The remaining
conjuncts show the claimed tolerance itself holds in the code: the inline
sequence parser yields the identical order-preserving `[1, 2, 3]` with and
without the trailing comma, and the inline mapping (`{…}`) and inline tuple
(`(…)`) parsers likewise accept a trailing comma before their closing token
with identical results. -/
theorem c8_trailing_comma_tolerance :
    decode "a: [1, 2, 3,]" = .error (.syntaxError "End()" "NewLine" none) ∧
    decode "a: [1, 2, 3]" = .error (.syntaxError "End()" "NewLine" none) ∧
    parseSquare 99 [intTok 1, tk .Comma, intTok 2, tk .Comma, intTok 3, tk .Comma,
        tk .RightSquare] = .ok (.seq [.int 1, .int 2, .int 3], []) ∧
    parseSquare 99 [intTok 1, tk .Comma, intTok 2, tk .Comma, intTok 3, tk .RightSquare] =
      .ok (.seq [.int 1, .int 2, .int 3], []) ∧
    parseBrace 99 [strTok "x", tk .Colon, intTok 1, tk .Comma, tk .RightBrace] =
      .ok (.map [(.str "x", .int 1)], []) ∧
    parseBrace 99 [strTok "x", tk .Colon, intTok 1, tk .RightBrace] =
      .ok (.map [(.str "x", .int 1)], []) ∧
    parseRound 99 [strTok "x", tk .EqualSign, intTok 1, tk .Comma, tk .RightRound] =
      .ok (.map [(.str "x", .int 1)], []) ∧
    parseRound 99 [strTok "x", tk .EqualSign, intTok 1, tk .RightRound] =
      .ok (.map [(.str "x", .int 1)], []) :=
  ⟨rfl, rfl, rfl, rfl, rfl, rfl, rfl, rfl⟩

/-- C4: decoding `a: [1, 2` fails with the syntax error naming the expected
closing alternatives `Comma or RightSquare` and carrying the `End` token's
line attribute (which `tokenize` leaves unset).  In general, whenever
`advance` pulls a token whose kind is not among the expected kinds, the
raised error carries that token's string representation, the expected kinds
joined for display, and that token's line. -/
theorem c4_unexpected_token_syntax_error :
    decode "a: [1, 2" = .error (.syntaxError "End()" "Comma or RightSquare" none) ∧
    ∀ (t : Tok) (ts : List Tok) (ks : List TokenKind),
      (∀ K ∈ ks, t.kind ≠ K) →
      advance (t :: ts) (some ks) = .error (.syntaxError (reprTok t) (joinOr ks) t.line) := by
  refine ⟨rfl, ?_⟩
  intro t ts ks h
  have hall : ks.all (fun K => !(t.kind == K)) = true := by
    rw [List.all_eq_true]
    intro K hK
    simpa using h K hK
  simp [advance, hall]

/-- Witness for C4's general part: `advance` on an `End` token with `NewLine`
expected raises exactly the formatted syntax error. -/
theorem c4_unexpected_token_syntax_error_witness :
    advance [tk .End] (some [TokenKind.NewLine]) =
      .error (.syntaxError (reprTok (tk .End)) (joinOr [TokenKind.NewLine]) (tk .End).line) :=
  c4_unexpected_token_syntax_error.2 (tk .End) [] [TokenKind.NewLine] (by decide)

/-- The rational computed for the literal `-1`. -/
theorem pyFloatVal_neg_one : pyFloatVal true [1] [] false [] = -1 := by
  norm_num [pyFloatVal, digitsToNat]

/-- The rational computed for the literal `-1.5`. -/
theorem pyFloatVal_neg_three_halves : pyFloatVal true [1] [5] false [] = -(3 / 2) := by
  norm_num [pyFloatVal, digitsToNat]

/-- The rational computed for the literal `4.2`. -/
theorem pyFloatVal_four_point_two : pyFloatVal false [4] [2] false [] = 21 / 5 := by
  norm_num [pyFloatVal, digitsToNat]

/-- C5 counterexample: the bare literal text `-1` does not fall through to a
`String` token: `Float.convert` (Python `float`) accepts it, so the cascade
produces `Float(-1.0)` — and the scanner does recognise `-1` as one bare
literal. -/
theorem c5_negative_literal_counterexample :
    literalDo "-1" = floatTok (.finite (-1)) ∧
    scanStr "-1" = .ok [floatTok (.finite (-1))] := by
  constructor
  · rw [← pyFloatVal_neg_one]
    rfl
  · rw [← pyFloatVal_neg_one]
    rfl

/-- C5 as amended: for a bare literal text beginning with a minus sign,
Integer conversion does reject it (only unsigned digit runs are accepted),
but the text does not fall through to a String: the Float conversion accepts
negative numerics, so `-1` yields `Float(-1.0)` and `-1.5` yields
`Float(-1.5)`. -/
theorem c5_negative_literal_amended :
    (∀ s : String, s.data.head? = some '-' → intConvert s = none) ∧
    literalDo "-1" = floatTok (.finite (-1)) ∧
    literalDo "-1.5" = floatTok (.finite (-(3 / 2))) := by
  refine ⟨?_, by rw [← pyFloatVal_neg_one]; rfl, by rw [← pyFloatVal_neg_three_halves]; rfl⟩
  intro s h
  have hdig : pyIsDigit s = false := by
    unfold pyIsDigit
    cases hd : s.data with
    | nil => simp [hd] at h
    | cons c t =>
      have hc : c = '-' := by simpa [hd] using h
      simp [hd, hc]
  simp [intConvert, hdig]

/-- Witness for C5's general part at the concrete literal `-1`. -/
theorem c5_negative_literal_amended_witness : intConvert "-1" = none :=
  c5_negative_literal_amended.1 "-1" (by decide)

/-- C6 counterexample: a `Comma` token in a position where a value is
expected (the first element slot of an inline sequence) does not make the
decoder fail there: the base `Token.parse` returns its unset value, so the
value parse succeeds with `None`. -/
theorem c6_punctuation_value_counterexample :
    parseValueTok 9 (tk .Comma) [] = .ok (.null, []) :=
  rfl

/-- C6 as amended: a token kind with no `parse` override (Comma, Colon,
EqualSign, Dedent, End, Hyphen out of context) appearing where a value is
expected does not raise a syntax error at that position; the base
`Token.parse` returns the token's unset value, so it parses to Null — e.g.
the inline sequence `[,]` parses to `Sequence[None]`.  (Failures can then
only arise from later stream expectations.) -/
theorem c6_punctuation_value_amended :
    (∀ (f : Nat) (k : TokenKind) (rest : List Tok),
      k ∈ ([.Comma, .Colon, .EqualSign, .Dedent, .End, .Hyphen] : List TokenKind) →
      parseValueTok (f + 1) (tk k) rest = .ok (.null, rest)) ∧
    parseSquare 9 [tk .Comma, tk .RightSquare] = .ok (.seq [.null], []) := by
  refine ⟨?_, rfl⟩
  intro f k rest hk
  fin_cases hk <;> rfl

/-- Witness for C6's general part: an out-of-context `Hyphen` at a value
position parses to Null. -/
theorem c6_punctuation_value_amended_witness :
    parseValueTok (0 + 1) (tk .Hyphen) [] = .ok (.null, []) :=
  c6_punctuation_value_amended.1 0 .Hyphen [] (by decide)

/-- `str.isdigit` in claim language: non-empty and all decimal digits. -/
theorem pyIsDigit_iff (s : String) :
    pyIsDigit s = true ↔ (s.data ≠ [] ∧ ∀ c ∈ s.data, c.isDigit = true) := by
  simp [pyIsDigit, List.all_eq_true, List.isEmpty_iff]

/-- `l.contains s` agrees with list membership. -/
theorem containsStr_iff (l : List String) (s : String) : l.contains s = true ↔ s ∈ l :=
  List.elem_iff

/-- A false-name is never a true-name. -/
theorem falseNames_not_trueNames {s : String} (h : s ∈ falseNames) : s ∉ trueNames := by
  fin_cases h <;> decide

/-- A true-name is never a false-name. -/
theorem trueNames_not_falseNames {s : String} (h : s ∈ trueNames) : s ∉ falseNames := by
  fin_cases h <;> decide

/-- C2: the conversion cascade for bare literal texts, over all strings (a
superset of the texts the scanner recognises as literals): the result is an
Integer token exactly on non-empty unsigned digit runs (no sign); else a
Float token exactly when Python `float()` accepts the text; else a Boolean
token exactly on the listed true/false names; else Null exactly on
`null`/`Null`/`NULL`; else a String token holding the raw text verbatim.
Concretely `42` yields Integer 42, `4.2` yields Float 4.2, `0` yields
Integer 0 and `no` yields Boolean false. -/
theorem c2_conversion_cascade :
    (∀ s : String,
      ((∃ n, literalDo s = intTok n) ↔ (s.data ≠ [] ∧ ∀ c ∈ s.data, c.isDigit = true)) ∧
      ((∃ f, literalDo s = floatTok f) ↔
        (intConvert s = none ∧ (pyFloatOfString s).isSome = true)) ∧
      (literalDo s = boolTok true ↔
        (intConvert s = none ∧ floatConvert s = none ∧ s ∈ trueNames)) ∧
      (literalDo s = boolTok false ↔
        (intConvert s = none ∧ floatConvert s = none ∧ s ∈ falseNames)) ∧
      (literalDo s = tk .NoneValue ↔
        (intConvert s = none ∧ floatConvert s = none ∧ boolConvert s = none ∧
          s ∈ nullNames)) ∧
      (literalDo s = strTok s ↔
        (intConvert s = none ∧ floatConvert s = none ∧ boolConvert s = none ∧
          s ∉ nullNames))) ∧
    literalDo "42" = intTok 42 ∧ literalDo "4.2" = floatTok (.finite (21 / 5)) ∧
    literalDo "0" = intTok 0 ∧ literalDo "no" = boolTok false := by
  constructor
  · intro s
    by_cases hd : pyIsDigit s = true
    · have hI : intConvert s = some (digitsToNat (s.data.map (fun c => c.toNat - 48))) := by
        simp [intConvert, hd]
      have hlit : literalDo s = intTok (digitsToNat (s.data.map (fun c => c.toNat - 48))) := by
        simp [literalDo, hI, intTok]
      have hD := (pyIsDigit_iff s).mp hd
      refine ⟨iff_of_true ⟨_, hlit⟩ hD, ?_, ?_, ?_, ?_, ?_⟩
      · refine iff_of_false ?_ ?_
        · rintro ⟨f, hf⟩
          rw [hlit] at hf
          exact absurd (congrArg Tok.kind hf) (by simp [intTok, floatTok, boolTok, strTok, tk])
        · rintro ⟨h1, -⟩
          rw [hI] at h1
          exact Option.noConfusion h1
      all_goals refine iff_of_false ?_ ?_
      all_goals first
        | (intro hf
           rw [hlit] at hf
           exact absurd (congrArg Tok.kind hf) (by simp [intTok, floatTok, boolTok, strTok, tk]))
        | (rintro ⟨h1, -⟩
           rw [hI] at h1
           exact Option.noConfusion h1)
    · have hI : intConvert s = none := by simp [intConvert, hd]
      have hD : ¬(s.data ≠ [] ∧ ∀ c ∈ s.data, c.isDigit = true) :=
        fun h => hd ((pyIsDigit_iff s).mpr h)
      rcases hF : floatConvert s with _ | q
      · have hFs : pyFloatOfString s = none := hF
        rcases hB : boolConvert s with _ | b
        · have hTm : s ∉ trueNames := fun h => by simp [boolConvert, h] at hB
          have hFm : s ∉ falseNames := fun h => by simp [boolConvert, hTm, h] at hB
          by_cases hNm : s ∈ nullNames
          · have hlit : literalDo s = tk .NoneValue := by
              simp [literalDo, hI, hF, hB, hNm, tk]
            refine ⟨?_, ?_, ?_, ?_, iff_of_true hlit ⟨hI, rfl, rfl, hNm⟩, ?_⟩
            · exact iff_of_false
                (fun ⟨n, hf⟩ => absurd (congrArg Tok.kind (hlit ▸ hf)) (by simp [intTok, floatTok, boolTok, strTok, tk])) hD
            · refine iff_of_false
                (fun ⟨f, hf⟩ => absurd (congrArg Tok.kind (hlit ▸ hf)) (by simp [intTok, floatTok, boolTok, strTok, tk])) ?_
              rintro ⟨-, h2⟩
              rw [hFs] at h2
              exact Bool.noConfusion h2
            · exact iff_of_false
                (fun hf => absurd (congrArg Tok.kind (hlit ▸ hf)) (by simp [intTok, floatTok, boolTok, strTok, tk]))
                (fun ⟨_, _, h3⟩ => hTm h3)
            · exact iff_of_false
                (fun hf => absurd (congrArg Tok.kind (hlit ▸ hf)) (by simp [intTok, floatTok, boolTok, strTok, tk]))
                (fun ⟨_, _, h3⟩ => hFm h3)
            · exact iff_of_false
                (fun hf => absurd (congrArg Tok.kind (hlit ▸ hf)) (by simp [intTok, floatTok, boolTok, strTok, tk]))
                (fun ⟨_, _, _, h4⟩ => h4 hNm)
          · have hlit : literalDo s = strTok s := by
              simp [literalDo, hI, hF, hB, hNm, strTok]
            refine ⟨?_, ?_, ?_, ?_, ?_, iff_of_true hlit ⟨hI, rfl, rfl, hNm⟩⟩
            · exact iff_of_false
                (fun ⟨n, hf⟩ => absurd (congrArg Tok.kind (hlit ▸ hf)) (by simp [intTok, floatTok, boolTok, strTok, tk])) hD
            · refine iff_of_false
                (fun ⟨f, hf⟩ => absurd (congrArg Tok.kind (hlit ▸ hf)) (by simp [intTok, floatTok, boolTok, strTok, tk])) ?_
              rintro ⟨-, h2⟩
              rw [hFs] at h2
              exact Bool.noConfusion h2
            · exact iff_of_false
                (fun hf => absurd (congrArg Tok.kind (hlit ▸ hf)) (by simp [intTok, floatTok, boolTok, strTok, tk]))
                (fun ⟨_, _, h3⟩ => hTm h3)
            · exact iff_of_false
                (fun hf => absurd (congrArg Tok.kind (hlit ▸ hf)) (by simp [intTok, floatTok, boolTok, strTok, tk]))
                (fun ⟨_, _, h3⟩ => hFm h3)
            · exact iff_of_false
                (fun hf => absurd (congrArg Tok.kind (hlit ▸ hf)) (by simp [intTok, floatTok, boolTok, strTok, tk]))
                (fun ⟨_, _, _, h4⟩ => hNm h4)
        · cases b
          · have hlit : literalDo s = boolTok false := by
              simp [literalDo, hI, hF, hB, boolTok]
            have hTm : s ∉ trueNames := fun h => by simp [boolConvert, h] at hB
            have hFm : s ∈ falseNames := by
              by_contra h
              simp [boolConvert, hTm, h] at hB
            refine ⟨?_, ?_, ?_, iff_of_true hlit ⟨hI, rfl, hFm⟩, ?_, ?_⟩
            · exact iff_of_false
                (fun ⟨n, hf⟩ => absurd (congrArg Tok.kind (hlit ▸ hf)) (by simp [intTok, floatTok, boolTok, strTok, tk])) hD
            · refine iff_of_false
                (fun ⟨f, hf⟩ => absurd (congrArg Tok.kind (hlit ▸ hf)) (by simp [intTok, floatTok, boolTok, strTok, tk])) ?_
              rintro ⟨-, h2⟩
              rw [hFs] at h2
              exact Bool.noConfusion h2
            · exact iff_of_false
                (fun hf => absurd (congrArg Tok.value (hlit ▸ hf)) (by simp [intTok, floatTok, boolTok, strTok, tk]))
                (fun ⟨_, _, h3⟩ => hTm h3)
            · exact iff_of_false
                (fun hf => absurd (congrArg Tok.kind (hlit ▸ hf)) (by simp [intTok, floatTok, boolTok, strTok, tk]))
                (fun ⟨_, _, h3, _⟩ => Option.noConfusion h3)
            · exact iff_of_false
                (fun hf => absurd (congrArg Tok.kind (hlit ▸ hf)) (by simp [intTok, floatTok, boolTok, strTok, tk]))
                (fun ⟨_, _, h3, _⟩ => Option.noConfusion h3)
          · have hlit : literalDo s = boolTok true := by
              simp [literalDo, hI, hF, hB, boolTok]
            have hTm : s ∈ trueNames := by
              by_contra h
              by_cases h2 : s ∈ falseNames <;> simp [boolConvert, h, h2] at hB
            have hFm : s ∉ falseNames := trueNames_not_falseNames hTm
            refine ⟨?_, ?_, iff_of_true hlit ⟨hI, rfl, hTm⟩, ?_, ?_, ?_⟩
            · exact iff_of_false
                (fun ⟨n, hf⟩ => absurd (congrArg Tok.kind (hlit ▸ hf)) (by simp [intTok, floatTok, boolTok, strTok, tk])) hD
            · refine iff_of_false
                (fun ⟨f, hf⟩ => absurd (congrArg Tok.kind (hlit ▸ hf)) (by simp [intTok, floatTok, boolTok, strTok, tk])) ?_
              rintro ⟨-, h2⟩
              rw [hFs] at h2
              exact Bool.noConfusion h2
            · exact iff_of_false
                (fun hf => absurd (congrArg Tok.value (hlit ▸ hf)) (by simp [intTok, floatTok, boolTok, strTok, tk]))
                (fun ⟨_, _, h3⟩ => hFm h3)
            · exact iff_of_false
                (fun hf => absurd (congrArg Tok.kind (hlit ▸ hf)) (by simp [intTok, floatTok, boolTok, strTok, tk]))
                (fun ⟨_, _, h3, _⟩ => Option.noConfusion h3)
            · exact iff_of_false
                (fun hf => absurd (congrArg Tok.kind (hlit ▸ hf)) (by simp [intTok, floatTok, boolTok, strTok, tk]))
                (fun ⟨_, _, h3, _⟩ => Option.noConfusion h3)
      · have hlit : literalDo s = floatTok q := by
          simp [literalDo, hI, hF, floatTok]
        have hFs : pyFloatOfString s = some q := hF
        refine ⟨?_, iff_of_true ⟨q, hlit⟩ ⟨hI, by rw [hFs]; rfl⟩, ?_, ?_, ?_, ?_⟩
        · exact iff_of_false
            (fun ⟨n, hf⟩ => absurd (congrArg Tok.kind (hlit ▸ hf)) (by simp [intTok, floatTok, boolTok, strTok, tk])) hD
        all_goals refine iff_of_false ?_ ?_
        all_goals first
          | (intro hf
             exact absurd (congrArg Tok.kind (hlit ▸ hf))
               (by simp [intTok, floatTok, boolTok, strTok, tk]))
          | (rintro ⟨-, h2, -⟩
             exact Option.noConfusion h2)
  · refine ⟨rfl, ?_, rfl, rfl⟩
    rw [← pyFloatVal_four_point_two]
    rfl

/-- Witness for C2 at a concrete digit run: `7` converts to an Integer
token, by the cascade characterisation. -/
theorem c2_conversion_cascade_witness : ∃ n, literalDo "7" = intTok n :=
  (c2_conversion_cascade.1 "7").1.mpr (by decide)

/-- C9 counterexample: a lone `@` is not left unmatched — the `Literal`
pattern matches it and the cascade produces the string `@`, so scanning
succeeds with no lexical error. -/
theorem c9_unknown_character_counterexample :
    scanStr "@" = .ok [strTok "@"] :=
  rfl

/-- C9 as amended: a character sequence that no token pattern matches (for
example a lone `!`, which every pattern rejects) aborts decoding immediately
with the lexical error carrying the unmatched text — the rest of the line —
and no token list is produced; the error propagates through `decode`
unchanged. -/
theorem c9_unknown_character_amended :
    scanStr "!" = .error (.tokenError "!") ∧
    decode "!" = .error (.tokenError "!") ∧
    decode "a: !b" = .error (.tokenError "!b") :=
  ⟨rfl, rfl, rfl⟩

end Neon
